import Mathlib

set_option linter.all false

/-!
Verification of the GOL HashLife-style quadtree engine.

The embedding follows `src/quad_tree_node.cpp` / `src/quad_tree.cpp`
(compiled configuration: `ENABLE_BIG_INT = 1`, `ENABLE_INFINITE_LEVELS = 0`,
`LEVEL_MAX = 256`, `kStartLevels = 3`).

A `QuadTreeNode` in the C++ code is a canonical (hash-consed) heap node:
two nodes are the same pointer iff they are structurally equal (the store
invariant, verified separately over an explicit store model below).  The
tree-shaped part of the program is therefore embedded as an inductive type
whose equality corresponds to pointer equality of canonical nodes; the
`Canonical` constructor calls of the source become the `node`/`leaf`
constructors.  The `population` field, computed once in the node
constructor as the sum of the children's populations (leaf: `alive & 1`),
becomes a recursive function, and the `alive` flag (`population > 0`)
likewise.  The `level` field is stored explicitly, exactly as in the
source; well-formedness (`wfb`) states the source's level-consistency
invariant (children of a level-`l` inner node have level `l - 1`).
-/

namespace GOL

/-- Quadtree node: `leaf` is the level-0 cell (constructor
`QuadTreeNode(int alive)`), `node` is the inner node (constructor
`QuadTreeNode(nw, ne, sw, se, level)`). -/
inductive QuadTreeNode where
  | leaf (alive : Bool)
  | node (nw ne sw se : QuadTreeNode) (level : Nat)
deriving DecidableEq, Repr

namespace QuadTreeNode

/-- Child accessor `node->nw`.  In the source a leaf's child pointers are
null and never dereferenced; on a leaf we return the leaf itself as a junk
value (all uses below are guarded by level/well-formedness hypotheses). -/
def getNW : QuadTreeNode → QuadTreeNode
  | leaf a => leaf a
  | node nw _ _ _ _ => nw

/-- Child accessor `node->ne` (junk on leaves, see `getNW`). -/
def getNE : QuadTreeNode → QuadTreeNode
  | leaf a => leaf a
  | node _ ne _ _ _ => ne

/-- Child accessor `node->sw` (junk on leaves, see `getNW`). -/
def getSW : QuadTreeNode → QuadTreeNode
  | leaf a => leaf a
  | node _ _ sw _ _ => sw

/-- Child accessor `node->se` (junk on leaves, see `getNW`). -/
def getSE : QuadTreeNode → QuadTreeNode
  | leaf a => leaf a
  | node _ _ _ se _ => se

/-- The `level` field: 0 for a leaf (leaf constructor sets `level = 0`),
the stored level for an inner node. -/
def level : QuadTreeNode → Nat
  | leaf _ => 0
  | node _ _ _ _ l => l

/-- The `population` field.  Leaf constructor: `population = alive & 1`;
inner constructor: sum of the four children's populations. -/
def population : QuadTreeNode → Nat
  | leaf a => if a then 1 else 0
  | node nw ne sw se _ => nw.population + ne.population + sw.population + se.population

/-- The `alive` field: the leaf's flag; for an inner node the constructor
sets `alive = population > 0`. -/
def aliveFlag : QuadTreeNode → Bool
  | leaf a => a
  | node nw ne sw se l => decide (0 < (node nw ne sw se l).population)

/-- `alive` as the 0/1 integer the C++ code sums when counting neighbors. -/
def aliveBit (q : QuadTreeNode) : Nat := if q.aliveFlag then 1 else 0

/-- Is this an inner node? -/
def isInner : QuadTreeNode → Bool
  | leaf _ => false
  | node _ _ _ _ _ => true

/-- Level-consistency invariant maintained by the source: every inner node
has level at least 1 and four children of level one less.  (`Canonical` is
only ever called with `level >= 1` and four canonical children of that
level, cf. `EmptyQuadTree`, `Expand`, `Compact`, `SetCellAlive`,
`EvolveLevel2`, `EvolveLevelN`, `GetInner*Node`.) -/
def wfb : QuadTreeNode → Bool
  | leaf _ => true
  | node nw ne sw se l =>
      decide (1 ≤ l) && (nw.level == l - 1) && (ne.level == l - 1) &&
      (sw.level == l - 1) && (se.level == l - 1) &&
      wfb nw && wfb ne && wfb sw && wfb se

/-- `QuadTreeNode::EmptyQuadTree`: the canonical empty tree at a level. -/
def EmptyQuadTree : Nat → QuadTreeNode
  | 0 => leaf false
  | l + 1 => node (EmptyQuadTree l) (EmptyQuadTree l) (EmptyQuadTree l) (EmptyQuadTree l) (l + 1)

/-- `QuadTreeNode::Expand`: wrap this node one level higher, placing each
quadrant in the centre-adjacent corner of a new empty quadrant. -/
def Expand (q : QuadTreeNode) : QuadTreeNode :=
  let e := EmptyQuadTree (q.level - 1)
  node (node e e e q.getNW q.level)
       (node e e q.getNE e q.level)
       (node e q.getSW e e q.level)
       (node q.getSE e e e q.level)
       (q.level + 1)

/-- `QuadTreeNode::RunRule`: the Game of Life rule on an aliveness and a
neighbour count. -/
def RunRule (alive : Bool) (count : Nat) : Bool :=
  if alive then (count == 2 || count == 3) else (count == 3)

/-- `QuadTreeNode::EvolveLevel2`: evolve the four centre cells of a 4x4
(level-2) node directly, producing a level-1 node.  The neighbour sums
are written in exactly the order of the source. -/
def EvolveLevel2 (q : QuadTreeNode) : QuadTreeNode :=
  node
    (leaf (RunRule q.getNW.getSE.aliveFlag
      (q.getNW.getNW.aliveBit + q.getNW.getNE.aliveBit + q.getNE.getNW.aliveBit +
       q.getNW.getSW.aliveBit + q.getNE.getSW.aliveBit +
       q.getSW.getNW.aliveBit + q.getSW.getNE.aliveBit + q.getSE.getNW.aliveBit)))
    (leaf (RunRule q.getNE.getSW.aliveFlag
      (q.getNW.getNE.aliveBit + q.getNE.getNW.aliveBit + q.getNE.getNE.aliveBit +
       q.getNW.getSE.aliveBit + q.getNE.getSE.aliveBit +
       q.getSW.getNE.aliveBit + q.getSE.getNW.aliveBit + q.getSE.getNE.aliveBit)))
    (leaf (RunRule q.getSW.getNE.aliveFlag
      (q.getNW.getSW.aliveBit + q.getNW.getSE.aliveBit + q.getNE.getSW.aliveBit +
       q.getSW.getNW.aliveBit + q.getSE.getNW.aliveBit +
       q.getSW.getSW.aliveBit + q.getSW.getSE.aliveBit + q.getSE.getSW.aliveBit)))
    (leaf (RunRule q.getSE.getNW.aliveFlag
      (q.getNW.getSE.aliveBit + q.getNE.getSW.aliveBit + q.getNE.getSE.aliveBit +
       q.getSW.getNE.aliveBit + q.getSE.getNE.aliveBit +
       q.getSW.getSE.aliveBit + q.getSE.getSW.aliveBit + q.getSE.getSE.aliveBit)))
    (q.level - 1)

/-- `QuadTreeNode::GetInnerNWNode` (interned at `level - 2`). -/
def GetInnerNWNode (q : QuadTreeNode) : QuadTreeNode :=
  node q.getNW.getNW.getSE q.getNW.getNE.getSW q.getNW.getSW.getNE q.getNW.getSE.getNW (q.level - 2)

/-- `QuadTreeNode::GetInnerNNode` (interned at `level - 2`). -/
def GetInnerNNode (q : QuadTreeNode) : QuadTreeNode :=
  node q.getNW.getNE.getSE q.getNE.getNW.getSW q.getNW.getSE.getNE q.getNE.getSW.getNW (q.level - 2)

/-- `QuadTreeNode::GetInnerNENode` (interned at `level - 2`). -/
def GetInnerNENode (q : QuadTreeNode) : QuadTreeNode :=
  node q.getNE.getNW.getSE q.getNE.getNE.getSW q.getNE.getSW.getNE q.getNE.getSE.getNW (q.level - 2)

/-- `QuadTreeNode::GetInnerWNode` (interned at `level - 2`). -/
def GetInnerWNode (q : QuadTreeNode) : QuadTreeNode :=
  node q.getNW.getSW.getSE q.getNW.getSE.getSW q.getSW.getNW.getNE q.getSW.getNE.getNW (q.level - 2)

/-- `QuadTreeNode::GetInnerCNode` (interned at `level - 2`). -/
def GetInnerCNode (q : QuadTreeNode) : QuadTreeNode :=
  node q.getNW.getSE.getSE q.getNE.getSW.getSW q.getSW.getNE.getNE q.getSE.getNW.getNW (q.level - 2)

/-- `QuadTreeNode::GetInnerENode` (interned at `level - 2`). -/
def GetInnerENode (q : QuadTreeNode) : QuadTreeNode :=
  node q.getNE.getSW.getSE q.getNE.getSE.getSW q.getSE.getNW.getNE q.getSE.getNE.getNW (q.level - 2)

/-- `QuadTreeNode::GetInnerSWNode` (interned at `level - 2`). -/
def GetInnerSWNode (q : QuadTreeNode) : QuadTreeNode :=
  node q.getSW.getNW.getSE q.getSW.getNE.getSW q.getSW.getSW.getNE q.getSW.getSE.getNW (q.level - 2)

/-- `QuadTreeNode::GetInnerSNode` (interned at `level - 2`). -/
def GetInnerSNode (q : QuadTreeNode) : QuadTreeNode :=
  node q.getSW.getNE.getSE q.getSE.getNW.getSW q.getSW.getSE.getNE q.getSE.getSW.getNW (q.level - 2)

/-- `QuadTreeNode::GetInnerSENode` (interned at `level - 2`). -/
def GetInnerSENode (q : QuadTreeNode) : QuadTreeNode :=
  node q.getSE.getNW.getSE q.getSE.getNE.getSW q.getSE.getSW.getNE q.getSE.getSE.getNW (q.level - 2)

/-- `QuadTreeNode::EvolveLevelN`, parametric in the recursive `Evolve`
call: build the nine overlapping nonants, assemble four level-(L-1)
parents, evolve each and combine the four results one level up. -/
def EvolveLevelN (go : QuadTreeNode → QuadTreeNode) (q : QuadTreeNode) : QuadTreeNode :=
  let n00 := GetInnerNWNode q
  let n01 := GetInnerNNode q
  let n02 := GetInnerNENode q
  let n10 := GetInnerWNode q
  let n11 := GetInnerCNode q
  let n12 := GetInnerENode q
  let n20 := GetInnerSWNode q
  let n21 := GetInnerSNode q
  let n22 := GetInnerSENode q
  let newNW := go (node n00 n01 n10 n11 (n00.level + 1))
  let newNE := go (node n01 n02 n11 n12 (n00.level + 1))
  let newSW := go (node n10 n11 n20 n21 (n00.level + 1))
  let newSE := go (node n11 n12 n21 n22 (n00.level + 1))
  node newNW newNE newSW newSE (newNW.level + 1)

/-- `QuadTreeNode::Evolve`, with the stored level as structural recursion
fuel.  The source recursion terminates because every recursive `Evolve`
call inside `EvolveLevelN` is on a node whose stored level is one less
than the current one, so passing the stored level as fuel (see `Evolve`)
never reaches the fuel-exhausted branch on the source's inputs.
The memoisation through the `calc` field caches the (unique) value
computed here and is behaviourally transparent, so it is not modelled. -/
def EvolveGo : Nat → QuadTreeNode → QuadTreeNode
  | _, leaf a => leaf a
  | fuel, node nw ne sw se l =>
      if (node nw ne sw se l).population = 0 then nw
      else if l = 2 then EvolveLevel2 (node nw ne sw se l)
      else match fuel with
        | 0 => node nw ne sw se l
        | f + 1 => EvolveLevelN (EvolveGo f) (node nw ne sw se l)

/-- `QuadTreeNode::Evolve`. -/
def Evolve (q : QuadTreeNode) : QuadTreeNode := EvolveGo q.level q

/-- The guard of one iteration of the loop in `QuadTreeNode::Compact`:
`level >= 3` is the `while` condition, the twelve comparisons against the
canonical empty tree two levels down are the `if` condition inside. -/
def canCompact (r : QuadTreeNode) : Bool :=
  let e := EmptyQuadTree (r.level - 2)
  (r.getNW.getNW == e) && (r.getNW.getNE == e) && (r.getNW.getSW == e) &&
  (r.getNE.getNW == e) && (r.getNE.getNE == e) && (r.getNE.getSE == e) &&
  (r.getSW.getNW == e) && (r.getSW.getSW == e) && (r.getSW.getSE == e) &&
  (r.getSE.getNE == e) && (r.getSE.getSW == e) && (r.getSE.getSE == e)

/-- The loop of `QuadTreeNode::Compact`, with fuel.  Each iteration
requires `level >= 3` and produces a node of level one less, so starting
the fuel at the node's stored level (see `Compact`) the fuel can never run
out before the loop condition fails. -/
def CompactGo : Nat → QuadTreeNode → QuadTreeNode
  | 0, r => r
  | f + 1, r =>
      if 3 ≤ r.level && canCompact r then
        CompactGo f (node r.getNW.getSE r.getNE.getSW r.getSW.getNE r.getSE.getNW (r.level - 1))
      else r

/-- `QuadTreeNode::Compact`. -/
def Compact (r : QuadTreeNode) : QuadTreeNode := CompactGo r.level r

/-- The condition of the expansion loop in `QuadTree::Step`: the root is
expanded while its level is below 3 or some quadrant's population is not
already concentrated in the centre-adjacent grand-sub-quadrant. -/
def needsExpand (r : QuadTreeNode) : Bool :=
  decide (r.level < 3) ||
  !(r.getNW.population == r.getNW.getSE.getSE.population) ||
  !(r.getNE.population == r.getNE.getSW.getSW.population) ||
  !(r.getSW.population == r.getSW.getNE.getNE.population) ||
  !(r.getSE.population == r.getSE.getNW.getNW.population)

/-- The expansion loop of `QuadTree::Step`, with fuel. -/
def ExpandLoopGo : Nat → QuadTreeNode → QuadTreeNode
  | 0, r => r
  | f + 1, r => if needsExpand r then ExpandLoopGo f (Expand r) else r

/-- The expansion loop of `QuadTree::Step`.  Three iterations always
suffice: after two expansions every quadrant's population sits in its
centre-adjacent grand-sub-quadrant, and a third expansion is needed at
most to lift a level-0 root to level 3 (`expandLoop_done` below proves the
loop's exit condition always holds for this fuel, so the fuel-exhausted
branch of `ExpandLoopGo` is never taken). -/
def ExpandLoop (r : QuadTreeNode) : QuadTreeNode := ExpandLoopGo 3 r

/-- `QuadTreeNode::SetCellAlive` (the node-level recursion).  Coordinates
are the signed integers of the source; `offset = 1 << (level - 2)` for
`level >= 2`, 0 at level 1. -/
def SetCellAlive : QuadTreeNode → Int → Int → QuadTreeNode
  | leaf _, _, _ => leaf true
  | node nw ne sw se l, x, y =>
      if l = 0 then leaf true
      else
        let offset : Int := if l = 1 then 0 else 2 ^ (l - 2)
        if x < 0 then
          if y < 0 then node (SetCellAlive nw (x + offset) (y + offset)) ne sw se l
          else node nw ne (SetCellAlive sw (x + offset) (y - offset)) se l
        else
          if y < 0 then node nw (SetCellAlive ne (x - offset) (y + offset)) sw se l
          else node nw ne sw (SetCellAlive se (x - offset) (y - offset)) l

/-- The origin offset used by `BuildDisplayList` at an inner level
(`ENABLE_BIG_INT` build): 0 at level 1; `mpz_pow2_table[level - 2]`, i.e.
`2 ^ (level - 2)`, while `level - 2 < LEVEL_MAX = 256`; and beyond the
precomputed table the fallback loop repeatedly doubles an `offset`
initialised to 0, which therefore stays 0. -/
def displayOffset (l : Nat) : Int :=
  if 1 < l then (if l - 2 < 256 then 2 ^ (l - 2) else 0) else 0

/-- `QuadTreeNode::BuildDisplayList` (`ENABLE_BIG_INT` version), returning
the emitted coordinate list instead of appending to a by-reference vector.
Children are visited in source order nw, ne, sw, se, each only if its
population is nonzero. -/
def BuildDisplayList : QuadTreeNode → Int → Int → List (Int × Int)
  | leaf a, ox, oy => if a then [(ox, oy)] else []
  | node nw ne sw se l, ox, oy =>
      let offset := displayOffset l
      (if nw.population ≠ 0 then
        (if l = 1 then BuildDisplayList nw (ox - 1) (oy - 1)
         else BuildDisplayList nw (ox - offset) (oy - offset)) else []) ++
      (if ne.population ≠ 0 then
        (if l = 1 then BuildDisplayList ne ox (oy - 1)
         else BuildDisplayList ne (ox + offset) (oy - offset)) else []) ++
      (if sw.population ≠ 0 then
        (if l = 1 then BuildDisplayList sw (ox - 1) oy
         else BuildDisplayList sw (ox - offset) (oy + offset)) else []) ++
      (if se.population ≠ 0 then
        (if l = 1 then BuildDisplayList se ox oy
         else BuildDisplayList se (ox + offset) (oy + offset)) else [])

end QuadTreeNode

/-- The universe (`class QuadTree`): the root node and the generation
counter.  The display origin fields are set to 0 in the constructor and
never modified, so they are left out; the node store is modelled
separately (see `Store` below). -/
structure QuadTree where
  root : QuadTreeNode
  num_generations : Nat

namespace QuadTree

open QuadTreeNode

/-- The `QuadTree` constructor: an empty root at `kStartLevels = 3`,
generation counter 0. -/
def init : QuadTree := ⟨EmptyQuadTree 3, 0⟩

/-- The root transformation performed by a non-trivial `QuadTree::Step`:
expand until the border condition holds, evolve, compact. -/
def StepRoot (r : QuadTreeNode) : QuadTreeNode := Compact (Evolve (ExpandLoop r))

/-- `QuadTree::Step`.  If the root's population is zero the function
returns immediately (before touching the generation counter); otherwise
the root is expanded/evolved/compacted and the generation counter is
incremented.  `CollectGarbage` only frees store nodes unreachable from the
root and observably changes neither the root nor the counter, so it is
not modelled.  (The `root == 0` half of the source's guard can never fire:
the constructor always builds a root.) -/
def Step (u : QuadTree) : QuadTree :=
  if u.root.population = 0 then u
  else ⟨StepRoot u.root, u.num_generations + 1⟩

/-- The in-bounds test of `QuadTree::SetCellAlive`: at level `l` the root
covers `[-2^(l-1), 2^(l-1) - 1]` on both axes (0 at level 0). -/
def inBoundsForLevel (l : Nat) (x y : Int) : Bool :=
  let lo : Int := if l = 0 then 0 else -(2 ^ (l - 1))
  let hi : Int := if l = 0 then 0 else 2 ^ (l - 1) - 1
  lo ≤ x && x ≤ hi && lo ≤ y && y ≤ hi

/-- The expansion loop of `QuadTree::SetCellAlive`, with fuel.  The source
bounds the coordinates to signed 64-bit integers, and any such coordinate
is in bounds once the level reaches 64, so 64 iterations of fuel always
cover the source's `while (true)` loop. -/
def GrowToFitGo : Nat → QuadTreeNode → Int → Int → QuadTreeNode
  | 0, r, _, _ => r
  | f + 1, r, x, y =>
      if inBoundsForLevel r.level x y then r else GrowToFitGo f (Expand r) x y

/-- `QuadTree::SetCellAlive`: expand the root until the coordinate is in
bounds, then set the cell through the node recursion. -/
def SetCellAlive (u : QuadTree) (x y : Int) : QuadTree :=
  ⟨QuadTreeNode.SetCellAlive (GrowToFitGo 64 u.root x y) x y, u.num_generations⟩

/-- `QuadTree::SetCellsAlive` (vector overload). -/
def SetCellsAlive (u : QuadTree) (input : List (Int × Int)) : QuadTree :=
  input.foldl (fun v p => v.SetCellAlive p.1 p.2) u

end QuadTree

namespace QuadTreeNode

@[simp] theorem level_leaf (a : Bool) : (leaf a).level = 0 := rfl

@[simp] theorem level_node (a b c d : QuadTreeNode) (l : Nat) : (node a b c d l).level = l := rfl

@[simp] theorem getNW_node (a b c d : QuadTreeNode) (l : Nat) : (node a b c d l).getNW = a := rfl

@[simp] theorem getNE_node (a b c d : QuadTreeNode) (l : Nat) : (node a b c d l).getNE = b := rfl

@[simp] theorem getSW_node (a b c d : QuadTreeNode) (l : Nat) : (node a b c d l).getSW = c := rfl

@[simp] theorem getSE_node (a b c d : QuadTreeNode) (l : Nat) : (node a b c d l).getSE = d := rfl

theorem level_emptyTree (n : Nat) : (EmptyQuadTree n).level = n := by
  cases n <;> rfl

theorem pop_emptyTree (n : Nat) : (EmptyQuadTree n).population = 0 := by
  induction n with
  | zero => rfl
  | succ k ih => simp [EmptyQuadTree, population, ih]

theorem wfb_emptyTree (n : Nat) : wfb (EmptyQuadTree n) = true := by
  induction n with
  | zero => rfl
  | succ k ih => simp [EmptyQuadTree, wfb, ih, level_emptyTree]

theorem wfb_node_iff (a b c d : QuadTreeNode) (l : Nat) :
    wfb (node a b c d l) = true ↔
      (1 ≤ l ∧ a.level = l - 1 ∧ b.level = l - 1 ∧ c.level = l - 1 ∧ d.level = l - 1 ∧
       wfb a = true ∧ wfb b = true ∧ wfb c = true ∧ wfb d = true) := by
  simp [wfb, Bool.and_eq_true, and_assoc]

theorem pop_node (a b c d : QuadTreeNode) (l : Nat) :
    (node a b c d l).population = a.population + b.population + c.population + d.population := rfl

/-- A well-formed tree of positive level is an inner node carrying that
level. -/
theorem wf_level_pos_node (q : QuadTreeNode) (hw : wfb q = true) (hl : 1 ≤ q.level) :
    ∃ a b c d, q = node a b c d q.level := by
  cases q with
  | leaf a => simp [level] at hl
  | node a b c d l => exact ⟨a, b, c, d, rfl⟩

/-- A well-formed tree with zero population is the canonical empty tree of
its level (structural uniqueness; together with the store's canonicity
this is the handle identity asserted by the spec). -/
theorem pop_zero_eq_empty (q : QuadTreeNode) :
    wfb q = true → q.population = 0 → q = EmptyQuadTree q.level := by
  induction q with
  | leaf a =>
      intro _ hp
      cases a with
      | false => rfl
      | true => simp [population] at hp
  | node a b c d l iha ihb ihc ihd =>
      intro hw hp
      rw [wfb_node_iff] at hw
      obtain ⟨hl, la, lb, lc, ld, wa, wb, wc, wd⟩ := hw
      rw [pop_node] at hp
      have pa : a.population = 0 := by omega
      have pb : b.population = 0 := by omega
      have pc : c.population = 0 := by omega
      have pd : d.population = 0 := by omega
      obtain ⟨k, rfl⟩ : ∃ k, l = k + 1 := ⟨l - 1, by omega⟩
      have ea := iha wa pa
      have eb := ihb wb pb
      have ec := ihc wc pc
      have ed := ihd wd pd
      rw [la] at ea; rw [lb] at eb; rw [lc] at ec; rw [ld] at ed
      simp only [level, Nat.add_sub_cancel] at ea eb ec ed ⊢
      rw [ea, eb, ec, ed]
      rfl

/-- Children of a well-formed inner node are well-formed, one level
down. -/
theorem wf_children (q : QuadTreeNode) (hw : wfb q = true) (hl : 1 ≤ q.level) :
    (wfb q.getNW = true ∧ q.getNW.level = q.level - 1) ∧
    (wfb q.getNE = true ∧ q.getNE.level = q.level - 1) ∧
    (wfb q.getSW = true ∧ q.getSW.level = q.level - 1) ∧
    (wfb q.getSE = true ∧ q.getSE.level = q.level - 1) := by
  cases q with
  | leaf a => simp [level] at hl
  | node a b c d l =>
      rw [wfb_node_iff] at hw
      obtain ⟨h1, la, lb, lc, ld, wa, wb, wc, wd⟩ := hw
      exact ⟨⟨wa, la⟩, ⟨wb, lb⟩, ⟨wc, lc⟩, ⟨wd, ld⟩⟩

/-- A well-formed node of level `k + 1` decomposes into four well-formed
children of level `k`. -/
theorem wf_unfold (q : QuadTreeNode) (k : Nat) (hw : wfb q = true) (hl : q.level = k + 1) :
    ∃ a b c d, q = node a b c d (k + 1) ∧
      wfb a = true ∧ wfb b = true ∧ wfb c = true ∧ wfb d = true ∧
      a.level = k ∧ b.level = k ∧ c.level = k ∧ d.level = k := by
  cases q with
  | leaf x => simp [level] at hl
  | node a b c d l =>
      simp only [level] at hl
      subst hl
      rw [wfb_node_iff] at hw
      obtain ⟨h1, la, lb, lc, ld, wa, wb, wc, wd⟩ := hw
      simp only [Nat.add_sub_cancel] at la lb lc ld
      exact ⟨a, b, c, d, rfl, wa, wb, wc, wd, la, lb, lc, ld⟩

/-- All nine nonants built by `EvolveLevelN` from a well-formed node of
level `L >= 3` are well-formed nodes of level `L - 2`. -/
theorem nonants_wf (q : QuadTreeNode) (hw : wfb q = true) (hl : 3 ≤ q.level) :
    (wfb (GetInnerNWNode q) = true ∧ (GetInnerNWNode q).level = q.level - 2) ∧
    (wfb (GetInnerNNode q) = true ∧ (GetInnerNNode q).level = q.level - 2) ∧
    (wfb (GetInnerNENode q) = true ∧ (GetInnerNENode q).level = q.level - 2) ∧
    (wfb (GetInnerWNode q) = true ∧ (GetInnerWNode q).level = q.level - 2) ∧
    (wfb (GetInnerCNode q) = true ∧ (GetInnerCNode q).level = q.level - 2) ∧
    (wfb (GetInnerENode q) = true ∧ (GetInnerENode q).level = q.level - 2) ∧
    (wfb (GetInnerSWNode q) = true ∧ (GetInnerSWNode q).level = q.level - 2) ∧
    (wfb (GetInnerSNode q) = true ∧ (GetInnerSNode q).level = q.level - 2) ∧
    (wfb (GetInnerSENode q) = true ∧ (GetInnerSENode q).level = q.level - 2) := by
  obtain ⟨m, hm⟩ : ∃ m, q.level = (m + 2) + 1 := ⟨q.level - 3, by omega⟩
  obtain ⟨A, B, C, D, rfl, wA, wB, wC, wD, lA, lB, lC, lD⟩ := wf_unfold q (m + 2) hw hm
  obtain ⟨A1, A2, A3, A4, rfl, wA1, wA2, wA3, wA4, lA1, lA2, lA3, lA4⟩ :=
    wf_unfold A (m + 1) wA lA
  obtain ⟨B1, B2, B3, B4, rfl, wB1, wB2, wB3, wB4, lB1, lB2, lB3, lB4⟩ :=
    wf_unfold B (m + 1) wB lB
  obtain ⟨C1, C2, C3, C4, rfl, wC1, wC2, wC3, wC4, lC1, lC2, lC3, lC4⟩ :=
    wf_unfold C (m + 1) wC lC
  obtain ⟨D1, D2, D3, D4, rfl, wD1, wD2, wD3, wD4, lD1, lD2, lD3, lD4⟩ :=
    wf_unfold D (m + 1) wD lD
  obtain ⟨A1a, A1b, A1c, A1d, rfl, wA1a, wA1b, wA1c, wA1d, lA1a, lA1b, lA1c, lA1d⟩ :=
    wf_unfold A1 m wA1 lA1
  obtain ⟨A2a, A2b, A2c, A2d, rfl, wA2a, wA2b, wA2c, wA2d, lA2a, lA2b, lA2c, lA2d⟩ :=
    wf_unfold A2 m wA2 lA2
  obtain ⟨A3a, A3b, A3c, A3d, rfl, wA3a, wA3b, wA3c, wA3d, lA3a, lA3b, lA3c, lA3d⟩ :=
    wf_unfold A3 m wA3 lA3
  obtain ⟨A4a, A4b, A4c, A4d, rfl, wA4a, wA4b, wA4c, wA4d, lA4a, lA4b, lA4c, lA4d⟩ :=
    wf_unfold A4 m wA4 lA4
  obtain ⟨B1a, B1b, B1c, B1d, rfl, wB1a, wB1b, wB1c, wB1d, lB1a, lB1b, lB1c, lB1d⟩ :=
    wf_unfold B1 m wB1 lB1
  obtain ⟨B2a, B2b, B2c, B2d, rfl, wB2a, wB2b, wB2c, wB2d, lB2a, lB2b, lB2c, lB2d⟩ :=
    wf_unfold B2 m wB2 lB2
  obtain ⟨B3a, B3b, B3c, B3d, rfl, wB3a, wB3b, wB3c, wB3d, lB3a, lB3b, lB3c, lB3d⟩ :=
    wf_unfold B3 m wB3 lB3
  obtain ⟨B4a, B4b, B4c, B4d, rfl, wB4a, wB4b, wB4c, wB4d, lB4a, lB4b, lB4c, lB4d⟩ :=
    wf_unfold B4 m wB4 lB4
  obtain ⟨C1a, C1b, C1c, C1d, rfl, wC1a, wC1b, wC1c, wC1d, lC1a, lC1b, lC1c, lC1d⟩ :=
    wf_unfold C1 m wC1 lC1
  obtain ⟨C2a, C2b, C2c, C2d, rfl, wC2a, wC2b, wC2c, wC2d, lC2a, lC2b, lC2c, lC2d⟩ :=
    wf_unfold C2 m wC2 lC2
  obtain ⟨C3a, C3b, C3c, C3d, rfl, wC3a, wC3b, wC3c, wC3d, lC3a, lC3b, lC3c, lC3d⟩ :=
    wf_unfold C3 m wC3 lC3
  obtain ⟨C4a, C4b, C4c, C4d, rfl, wC4a, wC4b, wC4c, wC4d, lC4a, lC4b, lC4c, lC4d⟩ :=
    wf_unfold C4 m wC4 lC4
  obtain ⟨D1a, D1b, D1c, D1d, rfl, wD1a, wD1b, wD1c, wD1d, lD1a, lD1b, lD1c, lD1d⟩ :=
    wf_unfold D1 m wD1 lD1
  obtain ⟨D2a, D2b, D2c, D2d, rfl, wD2a, wD2b, wD2c, wD2d, lD2a, lD2b, lD2c, lD2d⟩ :=
    wf_unfold D2 m wD2 lD2
  obtain ⟨D3a, D3b, D3c, D3d, rfl, wD3a, wD3b, wD3c, wD3d, lD3a, lD3b, lD3c, lD3d⟩ :=
    wf_unfold D3 m wD3 lD3
  obtain ⟨D4a, D4b, D4c, D4d, rfl, wD4a, wD4b, wD4c, wD4d, lD4a, lD4b, lD4c, lD4d⟩ :=
    wf_unfold D4 m wD4 lD4
  refine ⟨⟨?_, rfl⟩, ⟨?_, rfl⟩, ⟨?_, rfl⟩, ⟨?_, rfl⟩, ⟨?_, rfl⟩, ⟨?_, rfl⟩,
         ⟨?_, rfl⟩, ⟨?_, rfl⟩, ⟨?_, rfl⟩⟩
  all_goals simp only [GetInnerNWNode, GetInnerNNode, GetInnerNENode, GetInnerWNode,
    GetInnerCNode, GetInnerENode, GetInnerSWNode, GetInnerSNode, GetInnerSENode,
    getNW, getNE, getSW, getSE, level]
  all_goals rw [wfb_node_iff]
  · exact ⟨Nat.succ_le_succ (Nat.zero_le m), lA1d, lA2c, lA3b, lA4a, wA1d, wA2c, wA3b, wA4a⟩
  · exact ⟨Nat.succ_le_succ (Nat.zero_le m), lA2d, lB1c, lA4b, lB3a, wA2d, wB1c, wA4b, wB3a⟩
  · exact ⟨Nat.succ_le_succ (Nat.zero_le m), lB1d, lB2c, lB3b, lB4a, wB1d, wB2c, wB3b, wB4a⟩
  · exact ⟨Nat.succ_le_succ (Nat.zero_le m), lA3d, lA4c, lC1b, lC2a, wA3d, wA4c, wC1b, wC2a⟩
  · exact ⟨Nat.succ_le_succ (Nat.zero_le m), lA4d, lB3c, lC2b, lD1a, wA4d, wB3c, wC2b, wD1a⟩
  · exact ⟨Nat.succ_le_succ (Nat.zero_le m), lB3d, lB4c, lD1b, lD2a, wB3d, wB4c, wD1b, wD2a⟩
  · exact ⟨Nat.succ_le_succ (Nat.zero_le m), lC1d, lC2c, lC3b, lC4a, wC1d, wC2c, wC3b, wC4a⟩
  · exact ⟨Nat.succ_le_succ (Nat.zero_le m), lC2d, lD1c, lC4b, lD3a, wC2d, wD1c, wC4b, wD3a⟩
  · exact ⟨Nat.succ_le_succ (Nat.zero_le m), lD1d, lD2c, lD3b, lD4a, wD1d, wD2c, wD3b, wD4a⟩

/-- Evolving the canonical empty tree of level `L >= 1` takes the
zero-population shortcut (`calc = nw`) and yields the canonical empty tree
one level down. -/
theorem evolve_empty (L : Nat) (hL : 1 ≤ L) :
    Evolve (EmptyQuadTree L) = EmptyQuadTree (L - 1) := by
  obtain ⟨k, rfl⟩ : ∃ k, L = k + 1 := ⟨L - 1, by omega⟩
  have hp : (EmptyQuadTree k).population = 0 := pop_emptyTree _
  simp [Evolve, EmptyQuadTree, EvolveGo, level, pop_node, hp]

/-- `EvolveLevel2` always returns a well-formed level-1 node when applied
at stored level 2. -/
theorem evolveLevel2_wf (q : QuadTreeNode) (hl : q.level = 2) :
    wfb (EvolveLevel2 q) = true ∧ (EvolveLevel2 q).level = 1 := by
  constructor
  · simp [EvolveLevel2, wfb, hl]
  · simp [EvolveLevel2, hl]

/-- One-generation evolution (with fuel equal to the stored level, as in
`Evolve`) of a well-formed node of level `f >= 2` is well-formed of level
`f - 1`. -/
theorem EvolveGo_wf (f : Nat) : ∀ q : QuadTreeNode, wfb q = true → q.level = f → 2 ≤ f →
    wfb (EvolveGo f q) = true ∧ (EvolveGo f q).level = f - 1 := by
  induction f with
  | zero => intro q _ _ h2; omega
  | succ f ih =>
      intro q hw hl h2
      obtain ⟨a, b, c, d, rfl, wa, wb, wc, wd, la, lb, lc, ld⟩ := wf_unfold q f hw hl
      by_cases hp : (node a b c d (f + 1)).population = 0
      · simpa [EvolveGo, hp] using ⟨wa, by omega⟩
      · by_cases hf : f + 1 = 2
        · obtain rfl : f = 1 := by omega
          have h := evolveLevel2_wf (node a b c d 2) (by simp)
          simpa [EvolveGo, hp] using ⟨h.1, by rw [h.2]⟩
        · have hf2 : 2 ≤ f := by omega
          have hof : f - 1 + 1 = f := by omega
          have h3 : 3 ≤ (node a b c d (f + 1)).level := by simp; omega
          obtain ⟨⟨w00, l00⟩, ⟨w01, l01⟩, ⟨w02, l02⟩, ⟨w10, l10⟩, ⟨w11, l11⟩,
                 ⟨w12, l12⟩, ⟨w20, l20⟩, ⟨w21, l21⟩, ⟨w22, l22⟩⟩ :=
            nonants_wf (node a b c d (f + 1)) hw h3
          simp only [level_node] at l00 l01 l02 l10 l11 l12 l20 l21 l22
          have e1 : wfb (node (GetInnerNWNode (node a b c d (f + 1)))
              (GetInnerNNode (node a b c d (f + 1))) (GetInnerWNode (node a b c d (f + 1)))
              (GetInnerCNode (node a b c d (f + 1)))
              ((GetInnerNWNode (node a b c d (f + 1))).level + 1)) = true := by
            rw [wfb_node_iff, l00]
            exact ⟨Nat.succ_le_succ (Nat.zero_le _), l00, l01, l10, l11, w00, w01, w10, w11⟩
          have e2 : wfb (node (GetInnerNNode (node a b c d (f + 1)))
              (GetInnerNENode (node a b c d (f + 1))) (GetInnerCNode (node a b c d (f + 1)))
              (GetInnerENode (node a b c d (f + 1)))
              ((GetInnerNWNode (node a b c d (f + 1))).level + 1)) = true := by
            rw [wfb_node_iff, l00]
            exact ⟨Nat.succ_le_succ (Nat.zero_le _), l01, l02, l11, l12, w01, w02, w11, w12⟩
          have e3 : wfb (node (GetInnerWNode (node a b c d (f + 1)))
              (GetInnerCNode (node a b c d (f + 1))) (GetInnerSWNode (node a b c d (f + 1)))
              (GetInnerSNode (node a b c d (f + 1)))
              ((GetInnerNWNode (node a b c d (f + 1))).level + 1)) = true := by
            rw [wfb_node_iff, l00]
            exact ⟨Nat.succ_le_succ (Nat.zero_le _), l10, l11, l20, l21, w10, w11, w20, w21⟩
          have e4 : wfb (node (GetInnerCNode (node a b c d (f + 1)))
              (GetInnerENode (node a b c d (f + 1))) (GetInnerSNode (node a b c d (f + 1)))
              (GetInnerSENode (node a b c d (f + 1)))
              ((GetInnerNWNode (node a b c d (f + 1))).level + 1)) = true := by
            rw [wfb_node_iff, l00]
            exact ⟨Nat.succ_le_succ (Nat.zero_le _), l11, l12, l21, l22, w11, w12, w21, w22⟩
          have lp : (GetInnerNWNode (node a b c d (f + 1))).level + 1 = f := by
            rw [l00]
            exact hof
          have q1 := ih _ e1 (by rw [level_node]; exact lp) hf2
          have q2 := ih _ e2 (by rw [level_node]; exact lp) hf2
          have q3 := ih _ e3 (by rw [level_node]; exact lp) hf2
          have q4 := ih _ e4 (by rw [level_node]; exact lp) hf2
          simp only [EvolveGo, hp, if_false, hf, EvolveLevelN]
          constructor
          · rw [wfb_node_iff, q1.2]
            exact ⟨Nat.succ_le_succ (Nat.zero_le _), rfl, q2.2, q3.2, q4.2,
              q1.1, q2.1, q3.1, q4.1⟩
          · rw [level_node, q1.2]
            exact hof

/-- `Evolve` of a well-formed node of level at least 2 is well-formed of
level one less. -/
theorem Evolve_wf (q : QuadTreeNode) (hw : wfb q = true) (h2 : 2 ≤ q.level) :
    wfb (Evolve q) = true ∧ (Evolve q).level = q.level - 1 :=
  EvolveGo_wf q.level q hw rfl h2

theorem level_expand (r : QuadTreeNode) : (Expand r).level = r.level + 1 := rfl

/-- `Expand` preserves population.  (Stated for inner nodes: the source
never expands a leaf — that would dereference null children.) -/
theorem pop_expand (r : QuadTreeNode) (hr : isInner r = true) :
    (Expand r).population = r.population := by
  cases r with
  | leaf a => simp [isInner] at hr
  | node a b c d l => simp [Expand, pop_node, pop_emptyTree]

theorem wfb_expand (r : QuadTreeNode) (hw : wfb r = true) (hl : 1 ≤ r.level) :
    wfb (Expand r) = true := by
  obtain ⟨⟨wa, la⟩, ⟨wb, lb⟩, ⟨wc, lc⟩, ⟨wd, ld⟩⟩ := wf_children r hw hl
  simp only [Expand]
  rw [wfb_node_iff]
  refine ⟨by omega, by simp, by simp, by simp, by simp, ?_, ?_, ?_, ?_⟩ <;>
    rw [wfb_node_iff] <;>
    refine ⟨by omega, ?_, ?_, ?_, ?_, ?_, ?_, ?_, ?_⟩ <;>
    first
      | exact wfb_emptyTree _
      | simp [level_emptyTree]
      | assumption
      | omega

/-- After two expansions the four quadrant populations are concentrated
in the centre-adjacent grand-sub-quadrants, so the only way the expansion
loop condition can still hold is a level below 3. -/
theorem needsExpand_expand_expand (r : QuadTreeNode) :
    needsExpand (Expand (Expand r)) = decide ((Expand (Expand r)).level < 3) := by
  simp [needsExpand, Expand, pop_node, pop_emptyTree]

/-- A root that fails the expansion-loop condition has level at least 3. -/
theorem needsExpand_false_level (r : QuadTreeNode) (h : needsExpand r = false) :
    3 ≤ r.level := by
  simp [needsExpand] at h
  omega

/-- The fuel of `ExpandLoop` is always sufficient: the loop's exit
condition holds of its result, so the fuelled loop agrees with the
source's unbounded `while` loop. -/
theorem expandLoop_done (r : QuadTreeNode) : needsExpand (ExpandLoop r) = false := by
  by_cases h0 : needsExpand r
  · by_cases h1 : needsExpand (Expand r)
    · by_cases h2 : needsExpand (Expand (Expand r))
      · have h3 := needsExpand_expand_expand (Expand r)
        simp only [ExpandLoop, ExpandLoopGo, h0, h1, h2, if_true]
        rw [h3]
        simp [level_expand]
      · simp [ExpandLoop, ExpandLoopGo, h0, h1, h2]
    · simp [ExpandLoop, ExpandLoopGo, h0, h1]
  · simp [ExpandLoop, ExpandLoopGo, h0]

theorem isInner_expand (r : QuadTreeNode) : isInner (Expand r) = true := rfl

theorem pop_expandLoopGo (f : Nat) (r : QuadTreeNode) (hr : isInner r = true) :
    (ExpandLoopGo f r).population = r.population := by
  induction f generalizing r with
  | zero => rfl
  | succ f ih =>
      by_cases h : needsExpand r
      · have := ih (Expand r) (isInner_expand r)
        simp [ExpandLoopGo, h, this, pop_expand r hr]
      · simp [ExpandLoopGo, h]

theorem wfb_expandLoopGo (f : Nat) (r : QuadTreeNode)
    (hw : wfb r = true) (hl : 1 ≤ r.level) :
    wfb (ExpandLoopGo f r) = true ∧ 1 ≤ (ExpandLoopGo f r).level := by
  induction f generalizing r with
  | zero => exact ⟨hw, hl⟩
  | succ f ih =>
      by_cases h : needsExpand r
      · have := ih (Expand r) (wfb_expand r hw hl) (by rw [level_expand]; omega)
        simpa [ExpandLoopGo, h] using this
      · simpa [ExpandLoopGo, h] using ⟨hw, hl⟩

theorem compactGo_wf (f : Nat) (r : QuadTreeNode) (hw : wfb r = true) (hl : 2 ≤ r.level) :
    wfb (CompactGo f r) = true ∧ 2 ≤ (CompactGo f r).level := by
  induction f generalizing r with
  | zero => exact ⟨hw, hl⟩
  | succ f ih =>
      by_cases h : (3 ≤ r.level && canCompact r) = true
      · have h3 : 3 ≤ r.level := by
          simp [Bool.and_eq_true] at h
          exact h.1
        obtain ⟨⟨wa, la⟩, ⟨wb, lb⟩, ⟨wc, lc⟩, ⟨wd, ld⟩⟩ := wf_children r hw (by omega)
        obtain ⟨⟨waa, laa⟩, ⟨wab, lab⟩, ⟨wac, lac⟩, ⟨wad, lad⟩⟩ :=
          wf_children r.getNW wa (by omega)
        obtain ⟨⟨wba, lba⟩, ⟨wbb, lbb⟩, ⟨wbc, lbc⟩, ⟨wbd, lbd⟩⟩ :=
          wf_children r.getNE wb (by omega)
        obtain ⟨⟨wca, lca⟩, ⟨wcb, lcb⟩, ⟨wcc, lcc⟩, ⟨wcd, lcd⟩⟩ :=
          wf_children r.getSW wc (by omega)
        obtain ⟨⟨wda, lda⟩, ⟨wdb, ldb⟩, ⟨wdc, ldc⟩, ⟨wdd, ldd⟩⟩ :=
          wf_children r.getSE wd (by omega)
        have hwn : wfb (node r.getNW.getSE r.getNE.getSW r.getSW.getNE r.getSE.getNW
            (r.level - 1)) = true := by
          rw [wfb_node_iff]
          exact ⟨by omega, by omega, by omega, by omega, by omega, wad, wbc, wcb, wda⟩
        have := ih (node r.getNW.getSE r.getNE.getSW r.getSW.getNE r.getSE.getNW
            (r.level - 1)) hwn (by simp; omega)
        simpa [CompactGo, h] using this
      · simpa [CompactGo, h] using ⟨hw, hl⟩

/-- A well-formed tree of positive level is an inner node. -/
theorem isInner_of_wf (q : QuadTreeNode) (hw : wfb q = true) (hl : 1 ≤ q.level) :
    isInner q = true := by
  cases q with
  | leaf a => simp at hl
  | node a b c d l => rfl

end QuadTreeNode

namespace Claims

open QuadTreeNode QuadTree

/-- C9: for every level `L >= 2`, `Evolve` applied to the canonical empty
node at level `L` returns (by handle identity, i.e. structurally) the
canonical empty node at level `L - 1`. -/
theorem claim_C9_empty_fixed_point (L : Nat) (hL : 2 ≤ L) :
    Evolve (EmptyQuadTree L) = EmptyQuadTree (L - 1) :=
  evolve_empty L (by omega)

/-- Witness for C9 at `L = 2`. -/
theorem claim_C9_witness :
    2 ≤ 2 ∧ Evolve (EmptyQuadTree 2) = EmptyQuadTree (2 - 1) :=
  ⟨by decide, claim_C9_empty_fixed_point 2 (by decide)⟩

/-- C10: every canonical (well-formed) node with population 0 is
handle-identical to `EmptyQuadTree` of its level, and consequently the
`Evolve` shortcut (`calc = nw`) on a zero-population node of level `>= 1`
returns exactly the canonical empty node one level down. -/
theorem claim_C10_zero_population_is_empty (q : QuadTreeNode) (hw : wfb q = true) :
    (q.population = 0 → q = EmptyQuadTree q.level) ∧
    (1 ≤ q.level → q.population = 0 → Evolve q = EmptyQuadTree (q.level - 1)) := by
  refine ⟨pop_zero_eq_empty q hw, ?_⟩
  intro hl hp
  rw [pop_zero_eq_empty q hw hp, level_emptyTree]
  exact evolve_empty _ hl

/-- Witness for C10 at the empty level-3 tree. -/
theorem claim_C10_witness :
    wfb (EmptyQuadTree 3) = true ∧
    ((EmptyQuadTree 3).population = 0 → EmptyQuadTree 3 = EmptyQuadTree (EmptyQuadTree 3).level) ∧
    (1 ≤ (EmptyQuadTree 3).level → (EmptyQuadTree 3).population = 0 →
      Evolve (EmptyQuadTree 3) = EmptyQuadTree ((EmptyQuadTree 3).level - 1)) :=
  ⟨by decide, claim_C10_zero_population_is_empty (EmptyQuadTree 3) (by decide)⟩

/-- C6 counterexample: on the concrete well-formed level-3 node holding
the single live cell (0,0), the NW nonant formed during recursive
evolution (`GetInnerNWNode`, interned at `level - 2`) has level 1, not
`L - 1 = 2` as the claim states. -/
theorem claim_C6_counterexample :
    wfb (SetCellAlive (EmptyQuadTree 3) 0 0) = true ∧
    (SetCellAlive (EmptyQuadTree 3) 0 0).level = 3 ∧
    (SetCellAlive (EmptyQuadTree 3) 0 0).population ≠ 0 ∧
    ¬((GetInnerNWNode (SetCellAlive (EmptyQuadTree 3) 0 0)).level =
        (SetCellAlive (EmptyQuadTree 3) 0 0).level - 1) := by
  decide

/-- C6 (amended): for every well-formed node at level `L >= 3`, the nine
nonants formed during recursive evolution are each well-formed nodes at
level `L - 2` (not `L - 1`), the NW nonant being the interning of
`(nw.nw.se, nw.ne.sw, nw.sw.ne, nw.se.nw)` at level `L - 2`, and
symmetrically for the other eight. -/
theorem claim_C6_amended_nonant_levels (q : QuadTreeNode)
    (hw : wfb q = true) (hl : 3 ≤ q.level) :
    (GetInnerNWNode q =
        node q.getNW.getNW.getSE q.getNW.getNE.getSW q.getNW.getSW.getNE q.getNW.getSE.getNW
          (q.level - 2) ∧
      wfb (GetInnerNWNode q) = true ∧ (GetInnerNWNode q).level = q.level - 2) ∧
    (GetInnerNNode q =
        node q.getNW.getNE.getSE q.getNE.getNW.getSW q.getNW.getSE.getNE q.getNE.getSW.getNW
          (q.level - 2) ∧
      wfb (GetInnerNNode q) = true ∧ (GetInnerNNode q).level = q.level - 2) ∧
    (GetInnerNENode q =
        node q.getNE.getNW.getSE q.getNE.getNE.getSW q.getNE.getSW.getNE q.getNE.getSE.getNW
          (q.level - 2) ∧
      wfb (GetInnerNENode q) = true ∧ (GetInnerNENode q).level = q.level - 2) ∧
    (GetInnerWNode q =
        node q.getNW.getSW.getSE q.getNW.getSE.getSW q.getSW.getNW.getNE q.getSW.getNE.getNW
          (q.level - 2) ∧
      wfb (GetInnerWNode q) = true ∧ (GetInnerWNode q).level = q.level - 2) ∧
    (GetInnerCNode q =
        node q.getNW.getSE.getSE q.getNE.getSW.getSW q.getSW.getNE.getNE q.getSE.getNW.getNW
          (q.level - 2) ∧
      wfb (GetInnerCNode q) = true ∧ (GetInnerCNode q).level = q.level - 2) ∧
    (GetInnerENode q =
        node q.getNE.getSW.getSE q.getNE.getSE.getSW q.getSE.getNW.getNE q.getSE.getNE.getNW
          (q.level - 2) ∧
      wfb (GetInnerENode q) = true ∧ (GetInnerENode q).level = q.level - 2) ∧
    (GetInnerSWNode q =
        node q.getSW.getNW.getSE q.getSW.getNE.getSW q.getSW.getSW.getNE q.getSW.getSE.getNW
          (q.level - 2) ∧
      wfb (GetInnerSWNode q) = true ∧ (GetInnerSWNode q).level = q.level - 2) ∧
    (GetInnerSNode q =
        node q.getSW.getNE.getSE q.getSE.getNW.getSW q.getSW.getSE.getNE q.getSE.getSW.getNW
          (q.level - 2) ∧
      wfb (GetInnerSNode q) = true ∧ (GetInnerSNode q).level = q.level - 2) ∧
    (GetInnerSENode q =
        node q.getSE.getNW.getSE q.getSE.getNE.getSW q.getSE.getSW.getNE q.getSE.getSE.getNW
          (q.level - 2) ∧
      wfb (GetInnerSENode q) = true ∧ (GetInnerSENode q).level = q.level - 2) := by
  obtain ⟨h1, h2, h3, h4, h5, h6, h7, h8, h9⟩ := nonants_wf q hw hl
  exact ⟨⟨rfl, h1⟩, ⟨rfl, h2⟩, ⟨rfl, h3⟩, ⟨rfl, h4⟩, ⟨rfl, h5⟩, ⟨rfl, h6⟩,
        ⟨rfl, h7⟩, ⟨rfl, h8⟩, ⟨rfl, h9⟩⟩

/-- Witness for the amended C6 at the empty level-3 tree: its NW nonant
is a well-formed node at level `3 - 2 = 1`. -/
theorem claim_C6_witness :
    wfb (EmptyQuadTree 3) = true ∧ 3 ≤ (EmptyQuadTree 3).level ∧
    (wfb (GetInnerNWNode (EmptyQuadTree 3)) = true ∧
      (GetInnerNWNode (EmptyQuadTree 3)).level = (EmptyQuadTree 3).level - 2) :=
  ⟨by decide, by decide,
    (claim_C6_amended_nonant_levels (EmptyQuadTree 3) (by decide) (by decide)).1.2⟩

/-- The universe obtained from a fresh universe by making the single cell
(-1,-1) alive.  Its root is the initial level-3 root and already satisfies
the border condition of the expansion loop, so `Step` evolves the level-3
root directly to a level-2 root which `Compact` leaves untouched. -/
def oneCellUniverse : QuadTree := QuadTree.SetCellAlive QuadTree.init (-1) (-1)

/-- C5 counterexample: after one `Step` of `oneCellUniverse` (a state
reached from initialisation by one `SetCellAlive`), the root has level 2,
not at least 3 as the claim states. -/
theorem claim_C5_counterexample :
    oneCellUniverse.root.level = 3 ∧ oneCellUniverse.root.population = 1 ∧
    (Step oneCellUniverse).root.level = 2 ∧
    ¬(3 ≤ (Step oneCellUniverse).root.level) := by
  decide

/-- C5 (amended): after the compaction phase of every `Step` on a
well-formed universe root of level at least 1 with nonzero population,
the root is a well-formed inner node of level at least 2 (level exactly 2
occurs when the expanded root has level exactly 3, as the counterexample
shows; compaction never goes below level 2). -/
theorem claim_C5_amended_root_level (u : QuadTree) (hw : wfb u.root = true)
    (hl : 1 ≤ u.root.level) (hp : u.root.population ≠ 0) :
    isInner (Step u).root = true ∧ 2 ≤ (Step u).root.level ∧ wfb (Step u).root = true := by
  have hroot : (Step u).root = Compact (Evolve (ExpandLoop u.root)) := by
    simp [Step, hp, StepRoot]
  have hwe : wfb (ExpandLoop u.root) = true ∧ 1 ≤ (ExpandLoop u.root).level :=
    wfb_expandLoopGo 3 u.root hw hl
  have h3 : 3 ≤ (ExpandLoop u.root).level :=
    needsExpand_false_level _ (expandLoop_done u.root)
  have hev := Evolve_wf (ExpandLoop u.root) hwe.1 (Nat.le_of_succ_le h3)
  have hev2 : 2 ≤ (Evolve (ExpandLoop u.root)).level := by
    rw [hev.2]
    omega
  have hcomp : wfb (Compact (Evolve (ExpandLoop u.root))) = true ∧
      2 ≤ (Compact (Evolve (ExpandLoop u.root))).level :=
    compactGo_wf (Evolve (ExpandLoop u.root)).level (Evolve (ExpandLoop u.root)) hev.1 hev2
  rw [hroot]
  exact ⟨isInner_of_wf _ hcomp.1 (Nat.le_of_succ_le hcomp.2), hcomp.2, hcomp.1⟩

/-- Witness for the amended C5 at `oneCellUniverse`. -/
theorem claim_C5_witness :
    wfb oneCellUniverse.root = true ∧ 1 ≤ oneCellUniverse.root.level ∧
    oneCellUniverse.root.population ≠ 0 ∧
    (isInner (Step oneCellUniverse).root = true ∧ 2 ≤ (Step oneCellUniverse).root.level ∧
      wfb (Step oneCellUniverse).root = true) :=
  ⟨by decide, by decide, by decide,
    claim_C5_amended_root_level oneCellUniverse (by decide) (by decide) (by decide)⟩

/-- C4 counterexample: on the freshly initialised (empty) universe,
`Step` returns before incrementing the generation counter, so the claim
that the counter is incremented fails at this input. -/
theorem claim_C4_counterexample :
    QuadTree.init.root.population = 0 ∧
    (Step QuadTree.init).num_generations = 0 ∧
    ¬((Step QuadTree.init).num_generations = QuadTree.init.num_generations + 1) := by
  decide

/-- C4 (amended): for every universe whose root population is 0, `Step`
returns the universe unchanged — root, population and level are
unchanged, and the generation counter is unchanged as well (the source
returns before `++num_generations`). -/
theorem claim_C4_amended_step_is_noop (u : QuadTree) (h : u.root.population = 0) :
    Step u = u := by
  simp [Step, h]

/-- Witness for the amended C4 at the initial universe. -/
theorem claim_C4_witness :
    QuadTree.init.root.population = 0 ∧ Step QuadTree.init = QuadTree.init :=
  ⟨by decide, claim_C4_amended_step_is_noop QuadTree.init (by decide)⟩

end Claims

end GOL

namespace GOL
namespace SpecSide

open QuadTreeNode

/-- Specification-side Game of Life rule, written from the spec's words:
an alive cell survives iff its live-neighbour count is 2 or 3; a dead
cell is born iff the count is exactly 3. -/
def specRule (alive : Bool) (n : Nat) : Bool :=
  if alive then decide (n = 2 ∨ n = 3) else decide (n = 3)

/-- Specification-side cell lookup in a level-1 node: the four cells
occupy coordinates {-1, 0} x {-1, 0} (x west-east, y north-south). -/
def specCell2 (c : QuadTreeNode) (x y : Int) : Bool :=
  if x < 0 then (if y < 0 then c.getNW.aliveFlag else c.getSW.aliveFlag)
  else (if y < 0 then c.getNE.aliveFlag else c.getSE.aliveFlag)

/-- Specification-side cell lookup in a level-2 node (a 4x4 region with
coordinates in [-2,1] on both axes): quadrants split at 0, the child
centre offset is 1. -/
def specCell4 (q : QuadTreeNode) (x y : Int) : Bool :=
  if x < 0 then
    if y < 0 then specCell2 q.getNW (x + 1) (y + 1) else specCell2 q.getSW (x + 1) (y - 1)
  else
    if y < 0 then specCell2 q.getNE (x - 1) (y + 1) else specCell2 q.getSE (x - 1) (y - 1)

/-- Count of live cells among the eight cells surrounding (x,y) in the
4x4 region (row-major enumeration). -/
def specNeighborCount4 (q : QuadTreeNode) (x y : Int) : Nat :=
  (if specCell4 q (x - 1) (y - 1) then 1 else 0) + (if specCell4 q x (y - 1) then 1 else 0) +
  (if specCell4 q (x + 1) (y - 1) then 1 else 0) + (if specCell4 q (x - 1) y then 1 else 0) +
  (if specCell4 q (x + 1) y then 1 else 0) + (if specCell4 q (x - 1) (y + 1) then 1 else 0) +
  (if specCell4 q x (y + 1) then 1 else 0) + (if specCell4 q (x + 1) (y + 1) then 1 else 0)

theorem runRule_eq_specRule (a : Bool) (n : Nat) : RunRule a n = specRule a n := by
  cases a <;> by_cases h2 : n = 2 <;> by_cases h3 : n = 3 <;>
    simp [RunRule, specRule, h2, h3]

theorem wf_level_zero_leaf (q : QuadTreeNode) (hw : wfb q = true) (hl : q.level = 0) :
    ∃ b, q = leaf b := by
  cases q with
  | leaf a => exact ⟨a, rfl⟩
  | node a b c d l =>
      rw [wfb_node_iff] at hw
      simp at hl
      omega

theorem evolve_eq_evolveLevel2 (q : QuadTreeNode) (hw : wfb q = true) (hl : q.level = 2) :
    Evolve q = EvolveLevel2 q := by
  by_cases hp : q.population = 0
  · have he := pop_zero_eq_empty q hw hp
    rw [hl] at he
    rw [he]
    decide
  · obtain ⟨a, b, c, d, rfl, _, _, _, _, _, _, _, _⟩ := wf_unfold q 1 hw hl
    simp [Evolve, EvolveGo, hp]

/-- C1: for every (well-formed) level-2 node, `Evolve` returns the level-1
node whose four cells are the one-generation Conway successors of the four
centre cells of the 4x4 region, each computed from the count of live cells
among its eight surrounding cells within that region: an alive cell
survives iff the count is 2 or 3, and a dead cell becomes alive iff the
count is exactly 3. -/
theorem claim_C1_evolve_level2_spec (q : QuadTreeNode) (hw : wfb q = true) (hl : q.level = 2) :
    Evolve q = node
      (leaf (specRule (specCell4 q (-1) (-1)) (specNeighborCount4 q (-1) (-1))))
      (leaf (specRule (specCell4 q 0 (-1)) (specNeighborCount4 q 0 (-1))))
      (leaf (specRule (specCell4 q (-1) 0) (specNeighborCount4 q (-1) 0)))
      (leaf (specRule (specCell4 q 0 0) (specNeighborCount4 q 0 0)))
      1 := by
  rw [evolve_eq_evolveLevel2 q hw hl]
  obtain ⟨A, B, C, D, rfl, wA, wB, wC, wD, lA, lB, lC, lD⟩ := wf_unfold q 1 hw hl
  obtain ⟨A1, A2, A3, A4, rfl, wA1, wA2, wA3, wA4, lA1, lA2, lA3, lA4⟩ := wf_unfold A 0 wA lA
  obtain ⟨B1, B2, B3, B4, rfl, wB1, wB2, wB3, wB4, lB1, lB2, lB3, lB4⟩ := wf_unfold B 0 wB lB
  obtain ⟨C1, C2, C3, C4, rfl, wC1, wC2, wC3, wC4, lC1, lC2, lC3, lC4⟩ := wf_unfold C 0 wC lC
  obtain ⟨D1, D2, D3, D4, rfl, wD1, wD2, wD3, wD4, lD1, lD2, lD3, lD4⟩ := wf_unfold D 0 wD lD
  obtain ⟨a1, rfl⟩ := wf_level_zero_leaf A1 wA1 lA1
  obtain ⟨a2, rfl⟩ := wf_level_zero_leaf A2 wA2 lA2
  obtain ⟨a3, rfl⟩ := wf_level_zero_leaf A3 wA3 lA3
  obtain ⟨a4, rfl⟩ := wf_level_zero_leaf A4 wA4 lA4
  obtain ⟨b1, rfl⟩ := wf_level_zero_leaf B1 wB1 lB1
  obtain ⟨b2, rfl⟩ := wf_level_zero_leaf B2 wB2 lB2
  obtain ⟨b3, rfl⟩ := wf_level_zero_leaf B3 wB3 lB3
  obtain ⟨b4, rfl⟩ := wf_level_zero_leaf B4 wB4 lB4
  obtain ⟨c1, rfl⟩ := wf_level_zero_leaf C1 wC1 lC1
  obtain ⟨c2, rfl⟩ := wf_level_zero_leaf C2 wC2 lC2
  obtain ⟨c3, rfl⟩ := wf_level_zero_leaf C3 wC3 lC3
  obtain ⟨c4, rfl⟩ := wf_level_zero_leaf C4 wC4 lC4
  obtain ⟨d1, rfl⟩ := wf_level_zero_leaf D1 wD1 lD1
  obtain ⟨d2, rfl⟩ := wf_level_zero_leaf D2 wD2 lD2
  obtain ⟨d3, rfl⟩ := wf_level_zero_leaf D3 wD3 lD3
  obtain ⟨d4, rfl⟩ := wf_level_zero_leaf D4 wD4 lD4
  simp only [EvolveLevel2, getNW_node, getNE_node, getSW_node, getSE_node, level_node,
    runRule_eq_specRule]
  norm_num [specCell4, specCell2, specNeighborCount4, aliveBit, aliveFlag]

/-- The level-2 node with the single live cell (0,0). -/
def oneCellLevel2 : QuadTreeNode := SetCellAlive (EmptyQuadTree 2) 0 0

/-- Witness for C1 at `oneCellLevel2`. -/
theorem claim_C1_witness :
    wfb oneCellLevel2 = true ∧ oneCellLevel2.level = 2 ∧
    Evolve oneCellLevel2 = node
      (leaf (specRule (specCell4 oneCellLevel2 (-1) (-1)) (specNeighborCount4 oneCellLevel2 (-1) (-1))))
      (leaf (specRule (specCell4 oneCellLevel2 0 (-1)) (specNeighborCount4 oneCellLevel2 0 (-1))))
      (leaf (specRule (specCell4 oneCellLevel2 (-1) 0) (specNeighborCount4 oneCellLevel2 (-1) 0)))
      (leaf (specRule (specCell4 oneCellLevel2 0 0) (specNeighborCount4 oneCellLevel2 0 0)))
      1 :=
  ⟨by decide, by decide,
    claim_C1_evolve_level2_spec oneCellLevel2 (by decide) (by decide)⟩

end SpecSide
end GOL

namespace GOL
namespace Claims

open QuadTreeNode QuadTree

/-- The universe obtained from a fresh universe by making cells
(0,0), (1,0), (2,0) alive (a horizontal blinker). -/
def blinkerU : QuadTree := QuadTree.SetCellsAlive QuadTree.init [(0, 0), (1, 0), (2, 0)]

/-- The root transformation `Step` performs, as a function of the root
alone (identity on a zero-population root). -/
def rootStep (r : QuadTreeNode) : QuadTreeNode :=
  if r.population = 0 then r else StepRoot r

theorem step_root_eq (u : QuadTree) : (Step u).root = rootStep u.root := by
  by_cases h : u.root.population = 0 <;> simp [Step, rootStep, h]

theorem iterate_step_root (n : Nat) (u : QuadTree) :
    ((Step^[n]) u).root = (rootStep^[n]) u.root := by
  induction n generalizing u with
  | zero => rfl
  | succ n ih =>
      rw [Function.iterate_succ_apply, Function.iterate_succ_apply, ih (Step u),
        step_root_eq u]

theorem blinker_roots (n : Nat) :
    (rootStep^[n]) blinkerU.root = blinkerU.root ∨
    (rootStep^[n]) blinkerU.root = rootStep blinkerU.root := by
  induction n with
  | zero => exact Or.inl rfl
  | succ n ih =>
      rw [Function.iterate_succ_apply']
      rcases ih with h | h
      · rw [h]
        exact Or.inr rfl
      · rw [h]
        exact Or.inl (by decide)

/-- C2: for the universe whose initial live cells are exactly
{(0,0),(1,0),(2,0)}, after one `Step` the set of live cells reported by
the display list (origin (0,0)) is exactly {(1,-1),(1,0),(1,1)}; after
two `Step`s it is again {(0,0),(1,0),(2,0)}; and the root population
equals 3 after every `Step`. -/
theorem claim_C2_blinker :
    (BuildDisplayList (Step blinkerU).root 0 0).toFinset =
      ({((1 : Int), (-1 : Int)), (1, 0), (1, 1)} : Finset (Int × Int)) ∧
    (BuildDisplayList (Step (Step blinkerU)).root 0 0).toFinset =
      ({((0 : Int), (0 : Int)), (1, 0), (2, 0)} : Finset (Int × Int)) ∧
    ∀ n : Nat, ((Step^[n]) blinkerU).root.population = 3 := by
  refine ⟨by decide, by decide, ?_⟩
  intro n
  rw [iterate_step_root n blinkerU]
  rcases blinker_roots n with h | h <;> rw [h] <;> decide

end Claims
end GOL

namespace GOL
namespace Store

/-- Structural key of a node in the canonical store: the `alive` flag for
a leaf, or the level plus the four child handles (pointer identities,
modelled as natural numbers) for an inner node. -/
inductive NodeKey where
  | leafK (alive : Bool)
  | innerK (nw ne sw se : Nat) (level : Nat)
deriving DecidableEq, Repr

/-- `QuadTreeNode::EqualFunction` over structural keys.  The source first
compares the `level` fields (a leaf stores level 0), then for level 0
compares the `alive` flags and otherwise the four child pointers.  Inner
nodes are only ever interned at level >= 1 (all `Canonical(nw,ne,sw,se,l)`
call sites pass `l >= 1`, cf. `keyOK`/`Reachable`), so a leaf key and an
inner key always differ in level and compare unequal. -/
def keyEq : NodeKey → NodeKey → Bool
  | .leafK a, .leafK b => a == b
  | .innerK a b c d l, .innerK a' b' c' d' l' =>
      (l == l') && (a == a') && (b == b') && (c == c') && (d == d')
  | _, _ => false

/-- `QuadTreeNode::HashFunction`: for a level-0 node, `population > 0 ? 1
: 0`; for an inner node `(size_t)nw + 3*(size_t)ne + 3*(size_t)sw +
3*(size_t)se` in 64-bit wraparound arithmetic over the child pointers.
The level is not hashed. -/
def hashKey : NodeKey → Nat
  | .leafK a => if a then 1 else 0
  | .innerK a b c d _ => (a + 3 * b + 3 * c + 3 * d) % 2 ^ 64

/-- The canonical map `node_map` together with the allocator: the list of
(handle, structural key) entries and the next fresh handle. -/
structure StoreState where
  entries : List (Nat × NodeKey)
  next : Nat
deriving DecidableEq, Repr

/-- Lookup by structural equality (the `node_map.find` of the source,
which compares with `EqualFunction`). -/
def findKey : List (Nat × NodeKey) → NodeKey → Option Nat
  | [], _ => none
  | (h, k') :: rest, k => if keyEq k' k then some h else findKey rest k

/-- `QuadTreeNode::Canonical`: look the structural key up; on a hit
return the existing handle with the store unchanged, on a miss
materialise one new node (a fresh handle) and one table entry. -/
def canonical (s : StoreState) (k : NodeKey) : Nat × StoreState :=
  match findKey s.entries k with
  | some h => (h, s)
  | none => (s.next, ⟨(s.next, k) :: s.entries, s.next + 1⟩)

def emptyStore : StoreState := ⟨[], 0⟩

/-- The keys the source ever interns: leaves, and inner nodes at level at
least 1. -/
def keyOK : NodeKey → Prop
  | .leafK _ => True
  | .innerK _ _ _ _ l => 1 ≤ l

/-- Store states reachable by `Canonical` calls from the empty store (the
state after `Initialize`). -/
inductive Reachable : StoreState → Prop where
  | init : Reachable emptyStore
  | intern (s : StoreState) (k : NodeKey) (hk : keyOK k) :
      Reachable s → Reachable (canonical s k).2

/-- `keyEq` is exactly structural equality of keys. -/
theorem keyEq_iff (k1 k2 : NodeKey) : keyEq k1 k2 = true ↔ k1 = k2 := by
  cases k1 <;> cases k2 <;> simp [keyEq] <;> tauto

theorem findKey_none (l : List (Nat × NodeKey)) (k : NodeKey)
    (h : findKey l k = none) : ∀ p ∈ l, keyEq p.2 k = false := by
  induction l with
  | nil => intro p hp; cases hp
  | cons e rest ih =>
      intro p hp
      obtain ⟨eh, ek⟩ := e
      by_cases he : keyEq ek k
      · simp [findKey, he] at h
      · simp [findKey, he] at h
        rw [List.mem_cons] at hp
        rcases hp with rfl | hp
        · simpa using he
        · exact ih h p hp

theorem findKey_some (l : List (Nat × NodeKey)) (k : NodeKey) (h : Nat)
    (hf : findKey l k = some h) : ∃ k', (h, k') ∈ l ∧ keyEq k' k = true := by
  induction l with
  | nil => cases hf
  | cons e rest ih =>
      obtain ⟨eh, ek⟩ := e
      by_cases he : keyEq ek k
      · simp [findKey, he] at hf
        exact ⟨ek, by simp [hf], he⟩
      · simp [findKey, he] at hf
        obtain ⟨k', hk1, hk2⟩ := ih hf
        exact ⟨k', by simp [hk1], hk2⟩

theorem findKey_not_none (l : List (Nat × NodeKey)) (k : NodeKey)
    (h : ∃ p ∈ l, keyEq p.2 k = true) : findKey l k ≠ none := by
  intro hn
  obtain ⟨p, hp, hk⟩ := h
  rw [findKey_none l k hn p hp] at hk
  cases hk

/-- The canonicity invariant: in every reachable store, two entries with
structurally equal keys carry the same handle. -/
theorem reachable_canonicity (s : StoreState) (hs : Reachable s) :
    ∀ p ∈ s.entries, ∀ q ∈ s.entries, keyEq p.2 q.2 = true → p.1 = q.1 := by
  induction hs with
  | init => intro p hp; cases hp
  | intern s k hk hr ih =>
      intro p hp q hq hpq
      cases hfind : findKey s.entries k with
      | some h =>
          simp only [canonical, hfind] at hp hq
          exact ih p hp q hq hpq
      | none =>
          simp only [canonical, hfind] at hp hq
          have hnone := findKey_none s.entries k hfind
          rw [List.mem_cons] at hp hq
          rcases hp with rfl | hp <;> rcases hq with rfl | hq
          · rfl
          · have hfalse := hnone q hq
            have hq2 : q.2 = k := ((keyEq_iff _ _).mp hpq).symm
            rw [hq2, (keyEq_iff k k).mpr rfl] at hfalse
            simp at hfalse
          · have hfalse := hnone p hp
            have hp2 : p.2 = k := (keyEq_iff _ _).mp hpq
            rw [hp2, (keyEq_iff k k).mpr rfl] at hfalse
            simp at hfalse
          · exact ih p hp q hq hpq

/-- C3: canonicity invariant of the node store.  In every store reachable
by `Canonical` calls, (i) any two held entries whose keys are structurally
equal (`EqualFunction`) carry the same handle, and (ii) a `Canonical` call
whose structural key is already present returns the existing handle and
allocates nothing — the store (entries and allocator) is unchanged. -/
theorem claim_C3_canonicity (s : StoreState) (hs : Reachable s) :
    (∀ p ∈ s.entries, ∀ q ∈ s.entries, keyEq p.2 q.2 = true → p.1 = q.1) ∧
    (∀ k : NodeKey, (∃ p ∈ s.entries, keyEq p.2 k = true) →
      (canonical s k).2 = s ∧
      ∃ p ∈ s.entries, keyEq p.2 k = true ∧ (canonical s k).1 = p.1) := by
  refine ⟨reachable_canonicity s hs, ?_⟩
  intro k hex
  cases hfind : findKey s.entries k with
  | none => exact absurd hfind (findKey_not_none s.entries k hex)
  | some h =>
      obtain ⟨k', hmem, hkeq⟩ := findKey_some s.entries k h hfind
      exact ⟨by simp [canonical, hfind], ⟨(h, k'), hmem, hkeq, by simp [canonical, hfind]⟩⟩

/-- Witness for C3 at the one-entry store holding the dead leaf: interning
the dead leaf again returns the existing handle 0 and leaves the store
unchanged. -/
theorem claim_C3_witness :
    (canonical (canonical emptyStore (NodeKey.leafK false)).2 (NodeKey.leafK false)).2 =
      (canonical emptyStore (NodeKey.leafK false)).2 ∧
    ∃ p ∈ (canonical emptyStore (NodeKey.leafK false)).2.entries,
      keyEq p.2 (NodeKey.leafK false) = true ∧
      (canonical (canonical emptyStore (NodeKey.leafK false)).2 (NodeKey.leafK false)).1 = p.1 :=
  (claim_C3_canonicity _
      (Reachable.intern emptyStore (NodeKey.leafK false) (by exact trivial) Reachable.init)).2
    (NodeKey.leafK false) ⟨(0, NodeKey.leafK false), by decide, by decide⟩

/-- C8 counterexample: the two inner keys with children (5,1,2,3) and
(5,2,1,3) at the same level are distinct, their child tuples are
nontrivial permutations of each other (same multiset, not all equal), yet
their hashes coincide — the hash weights NE, SW and SE identically. -/
theorem claim_C8_counterexample :
    hashKey (NodeKey.innerK 5 1 2 3 1) = hashKey (NodeKey.innerK 5 2 1 3 1) ∧
    NodeKey.innerK 5 1 2 3 1 ≠ NodeKey.innerK 5 2 1 3 1 ∧
    ([5, 1, 2, 3] : Multiset Nat) = ([5, 2, 1, 3] : Multiset Nat) ∧
    ¬(5 = 1 ∧ 1 = 2 ∧ 2 = 3) := by
  refine ⟨by decide, by decide, by decide, by decide⟩

/-- C8 (amended): the hash is positionally sensitive only in the NW
slot.  Any permutation of the NE, SW, SE handles leaves the hash
unchanged (they all carry weight 3), and the level is not hashed at all;
but swapping NW with another position changes the hash whenever the two
handles differ (for handles below 2^63, so that the doubled difference
cannot wrap to 0 modulo 2^64) — in particular the NW-SE addition-collision
hazard of the spec is avoided. -/
theorem claim_C8_amended_hash_positions (a b c d l l' : Nat) :
    (hashKey (NodeKey.innerK a b c d l) = hashKey (NodeKey.innerK a c b d l')) ∧
    (hashKey (NodeKey.innerK a b c d l) = hashKey (NodeKey.innerK a b d c l')) ∧
    (hashKey (NodeKey.innerK a b c d l) = hashKey (NodeKey.innerK a d c b l')) ∧
    (a < 2 ^ 63 → b < 2 ^ 63 → a ≠ b →
      hashKey (NodeKey.innerK a b c d l) ≠ hashKey (NodeKey.innerK b a c d l')) ∧
    (a < 2 ^ 63 → d < 2 ^ 63 → a ≠ d →
      hashKey (NodeKey.innerK a b c d l) ≠ hashKey (NodeKey.innerK d b c a l')) := by
  refine ⟨?_, ?_, ?_, ?_, ?_⟩
  · simp only [hashKey]
    omega
  · simp only [hashKey]
    omega
  · simp only [hashKey]
    omega
  · intro ha hb hne heq
    simp only [hashKey] at heq
    omega
  · intro ha hd hne heq
    simp only [hashKey] at heq
    omega

/-- Witness for the amended C8 at children (1,2,3,4), level 1: swapping
NE and SW preserves the hash while swapping NW and NE changes it. -/
theorem claim_C8_witness :
    hashKey (NodeKey.innerK 1 2 3 4 1) = hashKey (NodeKey.innerK 1 3 2 4 1) ∧
    hashKey (NodeKey.innerK 1 2 3 4 1) ≠ hashKey (NodeKey.innerK 2 1 3 4 1) :=
  ⟨(claim_C8_amended_hash_positions 1 2 3 4 1 1).1,
    (claim_C8_amended_hash_positions 1 2 3 4 1 1).2.2.2.1 (by decide) (by decide) (by decide)⟩

end Store
end GOL

namespace GOL
namespace Claims

open QuadTreeNode

/-- A level-`k` tree whose single live cell sits in the north-west corner
spine: at every level the NW child holds the cell and the other three
children are empty. -/
def spineTree : Nat → QuadTreeNode
  | 0 => leaf true
  | k + 1 => node (spineTree k) (EmptyQuadTree k) (EmptyQuadTree k) (EmptyQuadTree k) (k + 1)

theorem level_spineTree (k : Nat) : (spineTree k).level = k := by
  cases k <;> rfl

theorem pop_spineTree (k : Nat) : (spineTree k).population = 1 := by
  induction k with
  | zero => rfl
  | succ k ih => simp [spineTree, pop_node, pop_emptyTree, ih]

theorem wfb_spineTree (k : Nat) : wfb (spineTree k) = true := by
  induction k with
  | zero => rfl
  | succ k ih =>
      rw [spineTree, wfb_node_iff]
      refine ⟨by omega, by simp [level_spineTree], by simp [level_emptyTree],
        by simp [level_emptyTree], by simp [level_emptyTree], ih,
        wfb_emptyTree k, wfb_emptyTree k, wfb_emptyTree k⟩

/-- Within the precomputed power-of-two table (level at most 257), the
display list of `spineTree` is the single cell at offset `-2^(k-1)` from
the origin on both axes. -/
theorem bdl_spineTree (k : Nat) (h1 : 1 ≤ k) (h257 : k ≤ 257) (ox oy : Int) :
    BuildDisplayList (spineTree k) ox oy = [(ox - 2 ^ (k - 1), oy - 2 ^ (k - 1))] := by
  induction k generalizing ox oy with
  | zero => omega
  | succ k ih =>
      by_cases hk : k = 0
      · subst hk
        simp [spineTree, BuildDisplayList, displayOffset, pop_emptyTree, EmptyQuadTree,
          population]
      · have hk1 : 1 ≤ k := by omega
        have hlt : 1 < k + 1 := by omega
        have h256 : k + 1 - 2 < 256 := by omega
        have hne1 : k + 1 ≠ 1 := by omega
        have h256b : k - 1 < 256 := by omega
        have hpow : (2 : Int) ^ (k - 1) + 2 ^ (k - 1) = 2 ^ k := by
          rw [← two_mul, ← pow_succ']
          congr 1
          omega
        simp [BuildDisplayList, spineTree, displayOffset, pop_spineTree, pop_emptyTree,
          hne1, hlt, h256, h256b, ih hk1 (by omega : k ≤ 257)]
        constructor <;> rw [sub_sub, hpow]


/-- A level-258 node: its NW and NE children each hold a single live
cell, at the same relative position within their own subtree. -/
def dupDisplayNode : QuadTreeNode :=
  node (spineTree 257) (spineTree 257) (EmptyQuadTree 257) (EmptyQuadTree 257) 258

/-- C7 (code bug, evaluated at the failing input): at level 258 the
precomputed power-of-two table (`LEVEL_MAX = 256`) is exhausted and the
fallback loop doubles an `offset` initialised to 0, so `BuildDisplayList`
recurses into the NW and NE children with unshifted origins: the child
origin shift is 0 instead of the `2^(L-2) = 2^256` the claim (and spec)
require, and the two distinct live cells of this well-formed
population-2 node are emitted at the same coordinate — the output list
has a duplicate and misses a live cell's coordinate. -/
theorem claim_C7_displaylist_code_bug :
    wfb dupDisplayNode = true ∧
    dupDisplayNode.population = 2 ∧
    displayOffset 258 = 0 ∧ ((2 : Int) ^ (258 - 2) ≠ 0) ∧
    BuildDisplayList dupDisplayNode 0 0 =
      [(-(2 ^ 256), -(2 ^ 256)), (-(2 ^ 256), -(2 ^ 256))] ∧
    ¬(BuildDisplayList dupDisplayNode 0 0).Nodup := by
  have hoff : displayOffset 258 = 0 := by norm_num [displayOffset]
  have h1 := bdl_spineTree 257 (by omega) (by omega) 0 0
  have h256 : (257 : Nat) - 1 = 256 := by norm_num
  rw [h256] at h1
  have hb : BuildDisplayList dupDisplayNode 0 0 =
      [((-(2 ^ 256) : Int), (-(2 ^ 256) : Int)), (-(2 ^ 256), -(2 ^ 256))] := by
    unfold dupDisplayNode
    rw [BuildDisplayList]
    simp only [level_node, hoff, pop_spineTree, pop_emptyTree]
    norm_num [h1]
  refine ⟨?_, ?_, by norm_num [displayOffset], pow_ne_zero _ (by norm_num), hb, ?_⟩
  · rw [dupDisplayNode, wfb_node_iff]
    exact ⟨by omega, by simp [level_spineTree], by simp [level_spineTree],
      by simp [level_emptyTree], by simp [level_emptyTree], wfb_spineTree 257,
      wfb_spineTree 257, wfb_emptyTree 257, wfb_emptyTree 257⟩
  · simp [dupDisplayNode, pop_node, pop_spineTree, pop_emptyTree]
  · rw [hb]
    simp

end Claims
end GOL
